import Mathlib

/-!
Bluetoe: option meta-programming and the scheduled radio contract

Part one embeds the template meta-functions of `bluetoe/options.hpp`
(`bluetoe::details`).  C++ types are values of `cpp_type`, a template parameter
pack is a `List cpp_type`, and every class template becomes a function whose
defining equations are the template's primary definition and its partial
specialisations, most specialised first.

Part two is the radio of `bluetoe/link_layer/scheduled_radio.hpp`.  That header
declares `scheduled_radio` and its scheduling functions and defines none of
them, so the engine behind the declarations is modelled from the specification:
instants are integer microseconds of the hardware timer, the engine is the
state machine the specification names, and the hardware boundary is a list of
completion signals.
-/

namespace bluetoe
namespace details

/-- The C++ types the meta-functions are instantiated with.

* `no_such_type` is `struct no_such_type {}` (options.hpp line 82);
* `plain id` is a type without a nested `meta_type` (`int`, an empty struct, ...);
* `with_meta id m` is a class that declares `typedef m meta_type;`;
* `tuple ts` is `std::tuple< ts... >`, which has no nested `meta_type`. -/
inductive cpp_type where
  | no_such_type : cpp_type
  | plain (id : Nat) : cpp_type
  | with_meta (id : Nat) (meta_type : cpp_type) : cpp_type
  | tuple (elems : List cpp_type) : cpp_type

mutual
/-- Embedding of `std::is_same< A, B >::value`: structural identity of two types. -/
def is_same : cpp_type → cpp_type → Bool
  | .no_such_type, .no_such_type => true
  | .plain a, .plain b => a == b
  | .with_meta a m, .with_meta b n => a == b && is_same m n
  | .tuple xs, .tuple ys => is_same_pack xs ys
  | _, _ => false
/-- Pointwise `is_same` on two template argument lists. -/
def is_same_pack : List cpp_type → List cpp_type → Bool
  | [], [] => true
  | x :: xs, y :: ys => is_same x y && is_same_pack xs ys
  | _, _ => false
end

/-- Embedding of `select_type< Select, A, B >` (lines 14-22): `A` when `Select` is
true, the `false` specialisation gives `B`. -/
def select_type (Select : Bool) (A B : cpp_type) : cpp_type :=
  match Select with
  | false => B
  | true => A

/-- Embedding of `or_type< Null, A, B >` (lines 27-35): the specialisation
`or_type< Null, Null, B >` is chosen exactly when `A` is the same type as `Null`
and yields `B`; the primary template yields `A`. -/
def or_type (Null A B : cpp_type) : cpp_type :=
  if is_same A Null then B else A

/-- Embedding of `add_type< A, B >` (lines 40-62).  The specialisation for two
tuples is more specialised than the two one-sided ones, which are more
specialised than the primary template. -/
def add_type : cpp_type → cpp_type → cpp_type
  | .tuple As, .tuple Bs => .tuple (As ++ Bs)
  | .tuple Ts, T => .tuple (Ts ++ [T])
  | T, .tuple Ts => .tuple (T :: Ts)
  | A, B => .tuple [A, B]

/-- Embedding of `extract_meta_type< T >::type` (lines 84-96): overload resolution
picks `check( U* )` when `T::meta_type` names a type and the variadic
`check( ... )`, returning `no_such_type`, otherwise. -/
def extract_meta_type : cpp_type → cpp_type
  | .with_meta _ m => m
  | _ => .no_such_type

/-- Embedding of `find_by_meta_type< MetaType, Type >` (lines 113-122), the
specialisation for exactly one candidate. -/
def find_by_meta_type_one (MetaType T : cpp_type) : cpp_type :=
  select_type (is_same (extract_meta_type T) MetaType) T .no_such_type

/-- Embedding of `find_by_meta_type< MetaType, Types... >::type` (lines 101-134). -/
def find_by_meta_type (MetaType : cpp_type) : List cpp_type → cpp_type
  | [] => .no_such_type
  | [T] => find_by_meta_type_one MetaType T
  | T :: Ts =>
      or_type .no_such_type (find_by_meta_type_one MetaType T) (find_by_meta_type MetaType Ts)

/-- Embedding of `find_all_by_meta_type< MetaType, Types... >::type` (lines 139-162). -/
def find_all_by_meta_type (MetaType : cpp_type) : List cpp_type → cpp_type
  | [] => .tuple []
  | T :: Ts =>
      select_type (is_same (extract_meta_type T) MetaType)
        (add_type T (find_all_by_meta_type MetaType Ts))
        (find_all_by_meta_type MetaType Ts)

/-- Embedding of `has_option< Option, Options... >::value` (lines 194-212). -/
def has_option (Opt : cpp_type) : List cpp_type → Bool
  | [] => false
  | FirstOption :: Options => is_same Opt FirstOption || has_option Opt Options

/-- A function object as `for_` uses it: `F` is the value of the object (its data
members), `W` is everything outside the object that a call can change, and
`each O` is the member template instantiation `f.template each< O >()`. -/
structure function_object (F W : Type) where
  each : cpp_type → F → W → F × W

/-- Embedding of `for_< Options... >::each( f )` (lines 235-269).  `f` is taken by
value, so every level works on its own copy: the copy handed to
`for_< Options... >::each` is made after `f.each< Option >()` ran, and the
caller's object is not written back.  What remains is the outside world. -/
def for_.each {F W : Type} (fo : function_object F W) : List cpp_type → F → W → W
  | [], _, w => w
  | [O], f, w => (fo.each O f w).2
  | O :: Options, f, w => for_.each fo Options (fo.each O f w).1 (fo.each O f w).2

/-- Instrumentation of a function object: the outside world is extended by the
log of the `each< O >()` instantiations that were executed, oldest first. -/
def function_object.traced {F W : Type} (fo : function_object F W) :
    function_object F (W × List cpp_type) where
  each := fun O f w => ((fo.each O f w.1).1, ((fo.each O f w.1).2, w.2 ++ [O]))

/-- Predicate "the meta type of `T`, as `extract_meta_type` computes it, is
`MetaType`". -/
def has_meta_type (MetaType T : cpp_type) : Bool :=
  is_same (extract_meta_type T) MetaType

/-- Recogniser for specialisations of `std::tuple`. -/
def is_tuple : cpp_type → Bool
  | .tuple _ => true
  | _ => false

/-- The template arguments a type contributes when `add_type` puts it in front
of a tuple: the elements of a `std::tuple`, the type itself otherwise. -/
def spliced : cpp_type → List cpp_type
  | .tuple ts => ts
  | T => [T]

/-- Specification of "the first (leftmost) element of `Types` whose embedded
meta type is `MetaType`, `no_such_type` when there is none". -/
def first_with_meta_type (MetaType : cpp_type) (Types : List cpp_type) : cpp_type :=
  (Types.find? (has_meta_type MetaType)).getD .no_such_type

end details

namespace link_layer

/-- Modelled from the spec: `delta_time` is only forward-declared in
scheduled_radio.hpp.  The spec (sections 2, 3 and 6) makes it a signed duration
with microsecond resolution, constructible from a microsecond count and used
for relative offsets only. -/
structure delta_time where
  usec : Int
deriving DecidableEq

/-- Modelled from the spec: the minimum representable positive delta, one unit of
the microsecond resolution. -/
def delta_time.min_positive : delta_time := ⟨1⟩

/-- Modelled from the spec: `write_buffer` is only forward-declared; the spec
(section 2) makes it an immutable span with a length.  The bytes are not
modelled. -/
structure write_buffer where
  size : Nat
deriving DecidableEq

/-- Modelled from the spec: `read_buffer` is only forward-declared; the spec
(section 2) makes it a mutable span with a capacity.  The bytes are not
modelled. -/
structure read_buffer where
  size : Nat
deriving DecidableEq

/-- Modelled from the spec: what the spec leaves to the protocol and to the
hardware abstraction boundary (sections 4.1 and 6): the number of radio
channels (valid channels are `0 .. channels - 1`), the maximum frame size, and
the time in microseconds the transmission of a frame of a given size takes. -/
structure radio_hardware where
  channels : Nat
  max_frame_size : Nat
  airtime : Nat → Nat

/-- Modelled from the spec: the guard interval of the combined operation, 150
microseconds (sections 3 and 6). -/
def guard_interval : Int := 150

/-- Modelled from the spec: a receive window armed in the hardware: the receiver
is active on `channel` from `start` and gives up at `deadline` (section 4.1). -/
structure receive_window where
  channel : Nat
  start : Int
  deadline : Int
deriving DecidableEq

/-- Modelled from the spec: the hidden state machine of section 9 (Idle,
ArmedTransmit, ArmedReceive, AwaitingGuardInterval, ArmedReceiveAfterTransmit).
Every state but `idle` is a Pending Operation.  `armed_transmit` carries the
timeout of the receive phase when the transmission belongs to a combined
operation. -/
inductive engine_state where
  | idle : engine_state
  | armed_transmit (channel size : Nat) (start : Int) (then_receive : Option Int) :
      engine_state
  | armed_receive (window : receive_window) : engine_state
  | awaiting_guard_interval (channel : Nat) (transmit_end timeout : Int) : engine_state
  | armed_receive_after_transmit (transmit_end : Int) (window : receive_window) :
      engine_state
deriving DecidableEq

/-- Modelled from the spec: the invocations of `CallBack` (sections 4.1 and 4.2):
the transmit-completion handler, `on_receive` and `on_timeout`. -/
inductive callback where
  | transmitted : callback
  | on_receive : callback
  | on_timeout : callback
deriving DecidableEq

/-- Modelled from the spec: `scheduled_radio` is declared without an
implementation.  Its state is the Anchor Instant in absolute hardware time
(microseconds), the state machine with the Pending Operation, and the callbacks
delivered so far, oldest first (sections 3 and 5). -/
structure scheduled_radio where
  anchor : Int
  state : engine_state
  delivered : List callback
deriving DecidableEq

/-- Modelled from the spec: how a scheduling call returns: accepted, or rejected
synchronously as a precondition violation, the checked error of section 7.  The
hardware is taken to fulfil its contract (section 6), so the hardware fault of
section 7 does not occur. -/
inductive call_status where
  | accepted : call_status
  | precondition_violation : call_status
deriving DecidableEq

/-- Modelled from the spec: the completion signals of the hardware boundary that
the interrupt-time handler receives (sections 5 and 6): the edge at the end of
a transmission, the end of the guard interval, a frame that arrived at an
instant and passed or failed validation, and the receive deadline. -/
inductive hardware_event where
  | transmit_end : hardware_event
  | guard_interval_elapsed : hardware_event
  | frame (instant : Int) (valid : Bool) : hardware_event
  | deadline : hardware_event
deriving DecidableEq

/-- Modelled from the spec: no Pending Operation is outstanding. -/
def engine_state.is_idle : engine_state → Bool
  | .idle => true
  | _ => false

/-- Modelled from the spec: the constructor `scheduled_radio()`, declared only.
It defines the first Anchor Instant as the instant `now` of its return
(section 4.1) and leaves the engine idle. -/
def scheduled_radio.construct (now : Int) : scheduled_radio :=
  { anchor := now, state := .idle, delivered := [] }

/-- Modelled from the spec: `schedule_transmit( channel, data, size, when_ms )`,
declared only.  Section 4.1: the channel is in the valid range, the buffer does
not exceed the maximum frame size, `when` is positive and no operation is
pending; then the transmission is armed at anchor + `when`.  Otherwise the call
is a precondition violation and nothing is armed (section 7).  `_data` stands for
the bytes `data` points to; the bytes do not enter the timing. -/
def schedule_transmit (hw : radio_hardware) (r : scheduled_radio)
    (channel : Nat) (_data : List Nat) (size : Nat) (when_ms : delta_time) :
    scheduled_radio × call_status :=
  if r.state.is_idle = true ∧ channel < hw.channels ∧ size ≤ hw.max_frame_size ∧
      0 < when_ms.usec then
    ({ r with state := .armed_transmit channel size (r.anchor + when_ms.usec) none },
      .accepted)
  else (r, .precondition_violation)

/-- Modelled from the spec: `schedule_receive( channel, when_ms, timeout_ms )`,
declared only.  Section 4.1: preconditions as for a transmission plus a positive
`timeout`; the receiver is active from anchor + `when`, and the timeout is
measured from the point receiving begins. -/
def schedule_receive (hw : radio_hardware) (r : scheduled_radio)
    (channel : Nat) (when_ms timeout_ms : delta_time) : scheduled_radio × call_status :=
  if r.state.is_idle = true ∧ channel < hw.channels ∧ 0 < when_ms.usec ∧
      0 < timeout_ms.usec then
    ({ r with
        state := .armed_receive
          ⟨channel, r.anchor + when_ms.usec, r.anchor + when_ms.usec + timeout_ms.usec⟩ },
      .accepted)
  else (r, .precondition_violation)

/-- Modelled from the spec:
`schedule_transmit_and_receive( channel, transmit, when, receive, timeout )`,
declared only.  Section 4.1: transmit at `when`, then a receive window at least
the guard interval after the end of the transmission, with `timeout` measured
from the start of that window; both phases are armed by this one call.  The
receive buffer only bounds the bytes that are written, which are not modelled. -/
def schedule_transmit_and_receive (hw : radio_hardware) (r : scheduled_radio)
    (channel : Nat) (transmit : write_buffer) (when : delta_time)
    (_receive : read_buffer) (timeout : delta_time) : scheduled_radio × call_status :=
  if r.state.is_idle = true ∧ channel < hw.channels ∧ transmit.size ≤ hw.max_frame_size ∧
      0 < when.usec ∧ 0 < timeout.usec then
    ({ r with state :=
        .armed_transmit channel transmit.size (r.anchor + when.usec) (some timeout.usec) },
      .accepted)
  else (r, .precondition_violation)

/-- Modelled from the spec: completion of the Pending Operation: the engine
becomes idle, the Anchor Instant is redefined and exactly one callback is
delivered (sections 3, 4.2 and 7). -/
def scheduled_radio.complete (r : scheduled_radio) (anchor : Int) (c : callback) :
    scheduled_radio :=
  { anchor := anchor, state := .idle, delivered := r.delivered ++ [c] }

/-- Modelled from the spec: outcome of a receive window (sections 4.1, 4.2, 7).
A valid frame inside the window completes with `on_receive` and the anchor at
the frame instant; a frame inside the window that fails validation and the
deadline both complete with `on_timeout` and the anchor at the end of the
window.  Any other signal leaves the window armed. -/
def scheduled_radio.receive_outcome (r : scheduled_radio) (w : receive_window) :
    hardware_event → scheduled_radio
  | .frame instant valid =>
      if w.start ≤ instant ∧ instant < w.deadline then
        (if valid = true then r.complete instant .on_receive
         else r.complete w.deadline .on_timeout)
      else r
  | .deadline => r.complete w.deadline .on_timeout
  | _ => r

/-- Modelled from the spec: the interrupt-time handler (sections 2, 5 and 9), the
only place where the state machine moves on and the anchor is written.
A transmit-only operation completes at the end of the transmission with the
anchor at the start of the transmission.  A combined operation waits for the
guard interval after the end of its transmission, which is its start plus the
airtime of the frame; then its receive window opens.  A signal that does not
belong to the current state is ignored. -/
def scheduled_radio.handle (hw : radio_hardware) (r : scheduled_radio)
    (e : hardware_event) : scheduled_radio :=
  match r.state, e with
  | .armed_transmit _ _ start none, .transmit_end => r.complete start .transmitted
  | .armed_transmit channel size start (some timeout), .transmit_end =>
      { r with state := .awaiting_guard_interval channel (start + hw.airtime size) timeout }
  | .awaiting_guard_interval channel transmit_end timeout, .guard_interval_elapsed =>
      { r with
        state := .armed_receive_after_transmit transmit_end
          ⟨channel, transmit_end + guard_interval, transmit_end + guard_interval + timeout⟩ }
  | .armed_receive w, e => r.receive_outcome w e
  | .armed_receive_after_transmit _ w, e => r.receive_outcome w e
  | _, _ => r

/-- Modelled from the spec: the radio after a sequence of hardware signals, oldest
first. -/
def scheduled_radio.run (hw : radio_hardware) (r : scheduled_radio) :
    List hardware_event → scheduled_radio
  | [] => r
  | e :: es => (r.handle hw e).run hw es

/-- Modelled from the spec: the receive window that is open, if one is. -/
def scheduled_radio.receive_window (r : scheduled_radio) : Option receive_window :=
  match r.state with
  | .armed_receive w => some w
  | .armed_receive_after_transmit _ w => some w
  | _ => none

/-- Modelled from the spec: the three kinds of scheduling call with their
arguments. -/
inductive scheduling_call where
  | transmit (channel : Nat) (data : List Nat) (size : Nat) (when_ms : delta_time) :
      scheduling_call
  | receive (channel : Nat) (when_ms timeout_ms : delta_time) : scheduling_call
  | transmit_and_receive (channel : Nat) (transmit : write_buffer) (when : delta_time)
      (receive : read_buffer) (timeout : delta_time) : scheduling_call

/-- Modelled from the spec: a scheduling call of any kind made on the radio. -/
def scheduled_radio.call (hw : radio_hardware) (r : scheduled_radio) :
    scheduling_call → scheduled_radio × call_status
  | .transmit channel data size when_ms => schedule_transmit hw r channel data size when_ms
  | .receive channel when_ms timeout_ms => schedule_receive hw r channel when_ms timeout_ms
  | .transmit_and_receive channel transmit when receive timeout =>
      schedule_transmit_and_receive hw r channel transmit when receive timeout

/-- Invariant of a combined operation whose transmission ends at `transmit_end`:
the engine is armed for that transmission, waits for the guard interval after
it, receives in a window that starts at least 150 microseconds after it, or has
completed. -/
def combined_phase (hw : radio_hardware) (transmit_end : Int) : engine_state → Bool
  | .idle => true
  | .armed_transmit _ size start (some _) => decide (start + hw.airtime size = transmit_end)
  | .awaiting_guard_interval _ te _ => decide (te = transmit_end)
  | .armed_receive_after_transmit te w =>
      decide (te = transmit_end) && decide (transmit_end + 150 ≤ w.start)
  | _ => false

/-- A sample hardware description for concrete instances of the theorems: 40
channels, frames of at most 39 bytes, 8 microseconds a byte with 10 bytes of
framing. -/
def sample_hardware : radio_hardware :=
  { channels := 40, max_frame_size := 39, airtime := fun size => 8 * (size + 10) }

end link_layer

namespace details

mutual
theorem is_same_eq : ∀ (a b : cpp_type), is_same a b = true → a = b
  | .no_such_type, .no_such_type, _ => rfl
  | .no_such_type, .plain _, h => by simp [is_same] at h
  | .no_such_type, .with_meta _ _, h => by simp [is_same] at h
  | .no_such_type, .tuple _, h => by simp [is_same] at h
  | .plain a, .plain b, h => by simp [is_same] at h; rw [h]
  | .plain _, .no_such_type, h => by simp [is_same] at h
  | .plain _, .with_meta _ _, h => by simp [is_same] at h
  | .plain _, .tuple _, h => by simp [is_same] at h
  | .with_meta a m, .with_meta b n, h => by
      simp [is_same] at h
      rw [h.1, is_same_eq m n h.2]
  | .with_meta _ _, .no_such_type, h => by simp [is_same] at h
  | .with_meta _ _, .plain _, h => by simp [is_same] at h
  | .with_meta _ _, .tuple _, h => by simp [is_same] at h
  | .tuple xs, .tuple ys, h => by
      simp [is_same] at h
      rw [is_same_pack_eq xs ys h]
  | .tuple _, .no_such_type, h => by simp [is_same] at h
  | .tuple _, .plain _, h => by simp [is_same] at h
  | .tuple _, .with_meta _ _, h => by simp [is_same] at h
theorem is_same_pack_eq : ∀ (xs ys : List cpp_type), is_same_pack xs ys = true → xs = ys
  | [], [], _ => rfl
  | [], _ :: _, h => by simp [is_same_pack] at h
  | _ :: _, [], h => by simp [is_same_pack] at h
  | x :: xs, y :: ys, h => by
      simp [is_same_pack] at h
      rw [is_same_eq x y h.1, is_same_pack_eq xs ys h.2]
end

mutual
theorem is_same_refl : ∀ (a : cpp_type), is_same a a = true
  | .no_such_type => by simp [is_same]
  | .plain _ => by simp [is_same]
  | .with_meta _ m => by simp [is_same, is_same_refl m]
  | .tuple xs => by simp [is_same, is_same_pack_refl xs]
theorem is_same_pack_refl : ∀ (xs : List cpp_type), is_same_pack xs xs = true
  | [] => by simp [is_same_pack]
  | x :: xs => by simp [is_same_pack, is_same_refl x, is_same_pack_refl xs]
end

theorem is_same_iff (a b : cpp_type) : is_same a b = true ↔ a = b :=
  ⟨is_same_eq a b, fun h => h ▸ is_same_refl a⟩

instance : DecidableEq cpp_type := fun a b =>
  decidable_of_iff (is_same a b = true) (is_same_iff a b)

theorem select_type_eq (c : Bool) (A B : cpp_type) :
    select_type c A B = if c = true then A else B := by
  cases c <;> rfl

theorem is_same_false_of_ne {a b : cpp_type} (h : a ≠ b) : is_same a b = false := by
  cases hs : is_same a b
  · rfl
  · exact absurd (is_same_eq a b hs) h

/-- One unfolding of `find_by_meta_type` that holds for every tail: the head is
the result when it matches and is not `no_such_type` itself. -/
theorem find_by_meta_type_cons (M T : cpp_type) (Ts : List cpp_type) :
    find_by_meta_type M (T :: Ts) =
      if (has_meta_type M T && !is_same T .no_such_type) = true then T
      else find_by_meta_type M Ts := by
  by_cases hT : T = .no_such_type
  · subst hT
    cases Ts with
    | nil =>
        simp [find_by_meta_type, find_by_meta_type_one, select_type_eq, is_same_refl]
    | cons U Us =>
        simp [find_by_meta_type, find_by_meta_type_one, select_type_eq, or_type, is_same_refl]
  · have hne : is_same T .no_such_type = false := is_same_false_of_ne hT
    cases hm : has_meta_type M T
    · have hm2 : is_same (extract_meta_type T) M = false := hm
      cases Ts with
      | nil =>
          simp [find_by_meta_type, find_by_meta_type_one, select_type_eq, hm2]
      | cons U Us =>
          simp [find_by_meta_type, find_by_meta_type_one, select_type_eq, or_type, hm2,
            is_same_refl]
    · have hm2 : is_same (extract_meta_type T) M = true := hm
      cases Ts with
      | nil =>
          simp [find_by_meta_type, find_by_meta_type_one, select_type_eq, hm2, hne]
      | cons U Us =>
          simp [find_by_meta_type, find_by_meta_type_one, select_type_eq, or_type, hm2, hne]

/-- Value of `find_all_by_meta_type` on every input: matching elements in order,
a matching `std::tuple` replaced by its own elements. -/
theorem find_all_by_meta_type_spliced (M : cpp_type) (Ts : List cpp_type) :
    find_all_by_meta_type M Ts =
      .tuple (((Ts.filter (has_meta_type M)).map spliced).flatten) := by
  induction Ts with
  | nil => rfl
  | cons T Ts ih =>
      cases hm : has_meta_type M T
      · have hm2 : is_same (extract_meta_type T) M = false := hm
        simp [find_all_by_meta_type, select_type_eq, hm2, List.filter_cons, hm, ih]
      · have hm2 : is_same (extract_meta_type T) M = true := hm
        simp only [find_all_by_meta_type, select_type_eq, hm2, List.filter_cons, hm, ih,
          if_true, List.map_cons, List.flatten_cons]
        cases T <;> simp [add_type, spliced]

/-- C5 (as stated) fails: for `MetaType = no_such_type` and
`Types = no_such_type, plain 0` the first element whose extracted meta type is
`no_such_type` is the first element, `no_such_type`; `find_by_meta_type` yields
the second element, `plain 0`, because `or_type` reads the first result as
"nothing found". -/
theorem find_by_meta_type_not_first :
    find_by_meta_type .no_such_type [.no_such_type, .plain 0] = .plain 0 ∧
    first_with_meta_type .no_such_type [.no_such_type, .plain 0] = .no_such_type ∧
    ¬ (find_by_meta_type .no_such_type [.no_such_type, .plain 0] =
        first_with_meta_type .no_such_type [.no_such_type, .plain 0]) := by
  decide

/-- C5 (amended): for every `MetaType` and every list `Types`, the empty list
included, `find_by_meta_type< MetaType, Types... >::type` is the first element
of `Types`, `no_such_type` itself left aside, whose meta type as
`extract_meta_type` computes it is `MetaType`; it is `no_such_type` when there
is no such element. -/
theorem find_by_meta_type_first (MetaType : cpp_type) (Types : List cpp_type) :
    find_by_meta_type MetaType Types =
      first_with_meta_type MetaType
        (Types.filter (fun T => !is_same T .no_such_type)) := by
  induction Types with
  | nil => rfl
  | cons T Ts ih =>
      rw [find_by_meta_type_cons, ih]
      cases hn : is_same T .no_such_type
      · cases hm : has_meta_type MetaType T <;>
          simp [first_with_meta_type, List.filter_cons, hn, hm, List.find?_cons]
      · simp [first_with_meta_type, List.filter_cons, hn]

/-- A `std::tuple` has a meta type only in the sense of `no_such_type`: for every
other `MetaType` no matching element is a tuple. -/
theorem has_meta_type_tuple (MetaType : cpp_type) (ts : List cpp_type)
    (h : has_meta_type MetaType (.tuple ts) = true) : MetaType = .no_such_type :=
  (is_same_eq _ _ h).symm

/-- C6 (as stated) fails: for `MetaType = no_such_type` the only element of
`Types = std::tuple< plain 0 >` matches, the claimed result is
`std::tuple< std::tuple< plain 0 > >`, and `find_all_by_meta_type` yields
`std::tuple< plain 0 >`: `add_type` concatenates the two tuples. -/
theorem find_all_by_meta_type_flattens :
    find_all_by_meta_type .no_such_type [.tuple [.plain 0]] = .tuple [.plain 0] ∧
    ¬ (find_all_by_meta_type .no_such_type [.tuple [.plain 0]] =
        .tuple ([cpp_type.tuple [.plain 0]].filter (has_meta_type .no_such_type))) := by
  decide

/-- C6 (amended): for every `MetaType` and every list `Types` in which no element
with the meta type `MetaType` is itself a `std::tuple` (so for every `MetaType`
other than `no_such_type`), `find_all_by_meta_type< MetaType, Types... >::type`
is the `std::tuple` of exactly the elements of `Types` with the meta type
`MetaType`, each occurrence once and in the original order; it is
`std::tuple<>` when there is none. -/
theorem find_all_by_meta_type_filter (MetaType : cpp_type) (Types : List cpp_type)
    (h : ∀ T ∈ Types, has_meta_type MetaType T = true → is_tuple T = false) :
    find_all_by_meta_type MetaType Types = .tuple (Types.filter (has_meta_type MetaType)) ∧
    ((∀ T ∈ Types, has_meta_type MetaType T = false) →
      find_all_by_meta_type MetaType Types = .tuple []) := by
  have key : ∀ (L : List cpp_type), (∀ T ∈ L, is_tuple T = false) →
      (L.map spliced).flatten = L := by
    intro L
    induction L with
    | nil => intro _; rfl
    | cons T L ih =>
        intro hL
        have hT := hL T (List.mem_cons_self _ _)
        have hrest := ih (fun U hU => hL U (List.mem_cons_of_mem _ hU))
        cases T <;> simp_all [spliced, is_tuple]
  have main : find_all_by_meta_type MetaType Types =
      .tuple (Types.filter (has_meta_type MetaType)) := by
    rw [find_all_by_meta_type_spliced, key]
    intro T hT
    rw [List.mem_filter] at hT
    exact h T hT.1 hT.2
  refine ⟨main, fun hnone => ?_⟩
  rw [main, List.filter_eq_nil_iff.mpr]
  intro T hT
  simp [hnone T hT]

/-- Witness for C6: `MetaType = plain 7` and three candidates, two of which carry
that meta type. -/
theorem find_all_by_meta_type_filter_witness :
    find_all_by_meta_type (.plain 7)
        [.with_meta 1 (.plain 7), .tuple [.plain 0], .with_meta 2 (.plain 7)] =
      .tuple [.with_meta 1 (.plain 7), .with_meta 2 (.plain 7)] :=
  (find_all_by_meta_type_filter (.plain 7)
    [.with_meta 1 (.plain 7), .tuple [.plain 0], .with_meta 2 (.plain 7)]
    (by decide)).1

/-- C8: `has_option< Option, Options... >::value` is true exactly when `Option` is
the same type as an element of `Options`; it is false for the empty list. -/
theorem has_option_iff_mem (Opt : cpp_type) (Options : List cpp_type) :
    (has_option Opt Options = true ↔ Opt ∈ Options) ∧ has_option Opt [] = false := by
  refine ⟨?_, rfl⟩
  induction Options with
  | nil => simp [has_option]
  | cons O Os ih =>
      simp only [has_option, Bool.or_eq_true, is_same_iff, ih, List.mem_cons]

/-- One unfolding of `for_.each` that holds for every tail. -/
theorem for_each_cons {F W : Type} (fo : function_object F W) (O : cpp_type)
    (Options : List cpp_type) (f : F) (w : W) :
    for_.each fo (O :: Options) f w =
      for_.each fo Options (fo.each O f w).1 (fo.each O f w).2 := by
  cases Options <;> simp [for_.each]

/-- C9: `for_< Options... >::each( f )` executes `f.each< O >()` once for every
position of `Options`, from left to right, and nothing else: the log of
executed instantiations grows by exactly `Options` (by nothing when `Options`
is empty), and the outside world ends as it does without the log. -/
theorem for_each_trace {F W : Type} (fo : function_object F W) (Options : List cpp_type)
    (f : F) (w : W) (log : List cpp_type) :
    for_.each fo.traced Options f (w, log) = (for_.each fo Options f w, log ++ Options) ∧
    for_.each fo.traced [] f (w, log) = (w, log) := by
  refine ⟨?_, rfl⟩
  induction Options generalizing f w log with
  | nil => simp [for_.each]
  | cons O Os ih =>
      rw [for_each_cons, for_each_cons]
      have h1 : (fo.traced.each O f (w, log)).1 = (fo.each O f w).1 := rfl
      have h2 : (fo.traced.each O f (w, log)).2 = ((fo.each O f w).2, log ++ [O]) := rfl
      rw [h1, h2, ih]
      simp

/-- C10: `or_type< Null, A, B >::type` is `A` if `A` is not `Null`, otherwise `B`
if `B` is not `Null`, otherwise `Null`. -/
theorem or_type_spec (Null A B : cpp_type) :
    or_type Null A B = if A ≠ Null then A else if B ≠ Null then B else Null := by
  unfold or_type
  by_cases hA : A = Null
  · subst hA
    by_cases hB : B = A
    · simp [is_same_refl, hB]
    · simp [is_same_refl, hB]
  · simp [is_same_false_of_ne hA, hA]

end details

namespace link_layer

theorem handle_idle (hw : radio_hardware) (r : scheduled_radio) (e : hardware_event)
    (h : r.state = .idle) : r.handle hw e = r := by
  unfold scheduled_radio.handle
  rw [h]

theorem run_idle (hw : radio_hardware) (r : scheduled_radio) (es : List hardware_event)
    (h : r.state = .idle) : r.run hw es = r := by
  induction es with
  | nil => rfl
  | cons e es ih => rw [scheduled_radio.run, handle_idle hw r e h, ih]

/-- Step of the handler on a pending operation: either the operation is still
pending and no callback was delivered, or exactly one callback was added. -/
theorem handle_pending (hw : radio_hardware) (r : scheduled_radio) (e : hardware_event)
    (h : r.state.is_idle = false) :
    ((r.handle hw e).state.is_idle = false ∧ (r.handle hw e).delivered = r.delivered) ∨
    (r.handle hw e).delivered.length = r.delivered.length + 1 := by
  obtain ⟨a, st, d⟩ := r
  cases st with
  | idle => simp [engine_state.is_idle] at h
  | armed_transmit ch sz start tr =>
      cases tr <;> cases e <;>
        simp [scheduled_radio.handle, scheduled_radio.complete, engine_state.is_idle]
  | armed_receive w =>
      cases e <;>
        simp [scheduled_radio.handle, scheduled_radio.receive_outcome,
          scheduled_radio.complete, engine_state.is_idle]
      split_ifs <;> simp [engine_state.is_idle]
  | awaiting_guard_interval ch te tmo =>
      cases e <;>
        simp [scheduled_radio.handle, scheduled_radio.complete, engine_state.is_idle]
  | armed_receive_after_transmit te w =>
      cases e <;>
        simp [scheduled_radio.handle, scheduled_radio.receive_outcome,
          scheduled_radio.complete, engine_state.is_idle]
      split_ifs <;> simp [engine_state.is_idle]

theorem handle_delivered_length (hw : radio_hardware) (r : scheduled_radio)
    (e : hardware_event) : r.delivered.length ≤ (r.handle hw e).delivered.length := by
  cases h : r.state.is_idle
  · rcases handle_pending hw r e h with h1 | h1
    · rw [h1.2]
    · omega
  · have hs : r.state = .idle := by
      cases hst : r.state <;> simp [hst, engine_state.is_idle] at h
      rfl
    rw [handle_idle hw r e hs]

theorem run_delivered_length (hw : radio_hardware) (r : scheduled_radio)
    (es : List hardware_event) : r.delivered.length ≤ (r.run hw es).delivered.length := by
  induction es generalizing r with
  | nil => exact Nat.le_refl _
  | cons e es ih =>
      exact Nat.le_trans (handle_delivered_length hw r e) (ih (r.handle hw e))

/-- While no callback has been delivered, a pending operation stays pending. -/
theorem run_pending (hw : radio_hardware) (r : scheduled_radio) (es : List hardware_event)
    (h : r.state.is_idle = false) (hd : (r.run hw es).delivered = r.delivered) :
    (r.run hw es).state.is_idle = false := by
  induction es generalizing r with
  | nil => exact h
  | cons e es ih =>
      rw [scheduled_radio.run] at hd ⊢
      rcases handle_pending hw r e h with h1 | h1
      · exact ih (r.handle hw e) h1.1 (hd.trans h1.2.symm)
      · have h2 := run_delivered_length hw (r.handle hw e) es
        rw [hd] at h2
        omega

/-- A call that is accepted leaves a pending operation and delivers nothing. -/
theorem call_accepted (hw : radio_hardware) (r : scheduled_radio) (c : scheduling_call)
    (h : (r.call hw c).2 = .accepted) :
    (r.call hw c).1.state.is_idle = false ∧ (r.call hw c).1.delivered = r.delivered := by
  cases c <;>
    simp only [scheduled_radio.call, schedule_transmit, schedule_receive,
      schedule_transmit_and_receive] at h ⊢ <;>
    split_ifs at h ⊢ <;> simp_all [engine_state.is_idle]

/-- A call on a radio with a pending operation is rejected and changes nothing. -/
theorem call_pending (hw : radio_hardware) (r : scheduled_radio) (c : scheduling_call)
    (h : r.state.is_idle = false) : r.call hw c = (r, .precondition_violation) := by
  cases c <;>
    simp [scheduled_radio.call, schedule_transmit, schedule_receive,
      schedule_transmit_and_receive, h]

/-- C1: whatever kind of operation was accepted before, as long as its completion
callback has not been delivered (the callbacks delivered are those from before
the call), a further scheduling call of any kind is rejected as a precondition
violation and leaves the radio, its pending operation and its anchor included,
as it was. -/
theorem second_call_rejected (hw : radio_hardware) (r : scheduled_radio)
    (first : scheduling_call) (es : List hardware_event) (second : scheduling_call)
    (haccepted : (r.call hw first).2 = .accepted)
    (hpending : ((r.call hw first).1.run hw es).delivered = r.delivered) :
    (((r.call hw first).1.run hw es).call hw second).2 = .precondition_violation ∧
    (((r.call hw first).1.run hw es).call hw second).1 = (r.call hw first).1.run hw es ∧
    (((r.call hw first).1.run hw es).call hw second).1.state =
      ((r.call hw first).1.run hw es).state ∧
    (((r.call hw first).1.run hw es).call hw second).1.anchor =
      ((r.call hw first).1.run hw es).anchor ∧
    ((r.call hw first).1.run hw es).state.is_idle = false := by
  have h1 := call_accepted hw r first haccepted
  have h2 := run_pending hw (r.call hw first).1 es h1.1 (hpending.trans h1.2.symm)
  rw [call_pending hw _ second h2]
  exact ⟨rfl, rfl, rfl, rfl, h2⟩

/-- Witness for C1: a combined operation whose transmission has ended and whose
guard interval runs; a transmit-only call is rejected. -/
theorem second_call_rejected_witness :
    (((((scheduled_radio.construct 0).call sample_hardware
        (.transmit_and_receive 5 ⟨2⟩ ⟨1000⟩ ⟨39⟩ ⟨500⟩)).1.run sample_hardware
        [.transmit_end]).call sample_hardware (.transmit 7 [170, 187] 2 ⟨1000⟩)).2 =
      .precondition_violation) :=
  (second_call_rejected sample_hardware (scheduled_radio.construct 0)
    (.transmit_and_receive 5 ⟨2⟩ ⟨1000⟩ ⟨39⟩ ⟨500⟩) [.transmit_end] (.transmit 7 [170, 187] 2 ⟨1000⟩)
    (by decide) (by rfl)).1

theorem handle_combined_phase (hw : radio_hardware) (te : Int) (r : scheduled_radio)
    (e : hardware_event) (h : combined_phase hw te r.state = true) :
    combined_phase hw te (r.handle hw e).state = true := by
  obtain ⟨a, st, d⟩ := r
  cases st with
  | idle => simpa [scheduled_radio.handle] using h
  | armed_transmit ch sz start tr =>
      cases tr with
      | none => simp [combined_phase] at h
      | some tmo =>
          cases e <;>
            simp_all [scheduled_radio.handle, combined_phase]
  | armed_receive w => simp [combined_phase] at h
  | awaiting_guard_interval ch te2 tmo =>
      cases e <;>
        simp_all [scheduled_radio.handle, combined_phase, guard_interval]
  | armed_receive_after_transmit te2 w =>
      cases e <;>
        simp_all [scheduled_radio.handle, scheduled_radio.receive_outcome,
          scheduled_radio.complete, combined_phase]
      split_ifs <;> simp_all [combined_phase]

theorem run_combined_phase (hw : radio_hardware) (te : Int) (r : scheduled_radio)
    (es : List hardware_event) (h : combined_phase hw te r.state = true) :
    combined_phase hw te (r.run hw es).state = true := by
  induction es generalizing r with
  | nil => exact h
  | cons e es ih => exact ih (r.handle hw e) (handle_combined_phase hw te r e h)

/-- C2: for a valid channel, transmit buffer, `when` and `timeout` on an idle
radio, `schedule_transmit_and_receive` is accepted; whatever signals the
hardware delivers afterwards, a receive window of the radio starts no sooner
than 150 microseconds after the end of the transmission (anchor + `when` + the
airtime of the buffer); and after the end of the transmission and the guard
interval the window is open, starting exactly 150 microseconds after that end,
with the timeout measured from its start. -/
theorem receive_window_after_guard_interval (hw : radio_hardware) (r : scheduled_radio)
    (channel : Nat) (transmit : write_buffer) (when : delta_time) (receive : read_buffer)
    (timeout : delta_time)
    (hidle : r.state.is_idle = true) (hchannel : channel < hw.channels)
    (hsize : transmit.size ≤ hw.max_frame_size) (hwhen : 0 < when.usec)
    (htimeout : 0 < timeout.usec) :
    (schedule_transmit_and_receive hw r channel transmit when receive timeout).2 =
      .accepted ∧
    (∀ (es : List hardware_event) (w : receive_window),
      ((schedule_transmit_and_receive hw r channel transmit when receive timeout).1.run
          hw es).receive_window = some w →
        (r.anchor + when.usec + hw.airtime transmit.size) + 150 ≤ w.start) ∧
    ((schedule_transmit_and_receive hw r channel transmit when receive timeout).1.run hw
        [.transmit_end, .guard_interval_elapsed]).receive_window =
      some ⟨channel, (r.anchor + when.usec + hw.airtime transmit.size) + 150,
        (r.anchor + when.usec + hw.airtime transmit.size) + 150 + timeout.usec⟩ := by
  have hcall : schedule_transmit_and_receive hw r channel transmit when receive timeout =
      ((scheduled_radio.mk r.anchor
        (.armed_transmit channel transmit.size (r.anchor + when.usec) (some timeout.usec))
        r.delivered), .accepted) := by
    simp [schedule_transmit_and_receive, hidle, hchannel, hsize, hwhen, htimeout]
  rw [hcall]
  refine ⟨rfl, ?_, ?_⟩
  · intro es w hw1
    have hinv := run_combined_phase hw (r.anchor + when.usec + hw.airtime transmit.size)
      (scheduled_radio.mk r.anchor
        (.armed_transmit channel transmit.size (r.anchor + when.usec) (some timeout.usec))
        r.delivered) es (by simp [combined_phase])
    simp only [scheduled_radio.receive_window] at hw1
    split at hw1
    · rename_i heq
      rw [heq] at hinv
      simp [combined_phase] at hinv
    · rename_i heq
      rw [heq] at hinv
      simp only [combined_phase, Bool.and_eq_true, decide_eq_true_eq] at hinv
      cases hw1
      exact hinv.2
    · cases hw1
  · simp [scheduled_radio.run, scheduled_radio.handle, scheduled_radio.receive_window,
      guard_interval]

/-- Witness for C2: channel 5, a frame of 2 bytes, `when` 1000 and `timeout` 500
microseconds after construction at instant 0: the transmission ends at 1096,
the window opens at 1246. -/
theorem receive_window_after_guard_interval_witness :
    (((schedule_transmit_and_receive sample_hardware (scheduled_radio.construct 0) 5 ⟨2⟩
        ⟨1000⟩ ⟨39⟩ ⟨500⟩).1.run sample_hardware
          [.transmit_end, .guard_interval_elapsed]).receive_window =
      some ⟨5, 1246, 1746⟩) :=
  (receive_window_after_guard_interval sample_hardware (scheduled_radio.construct 0) 5 ⟨2⟩
    ⟨1000⟩ ⟨39⟩ ⟨500⟩ (by decide) (by decide) (by decide) (by decide) (by decide)).2.2

/-- C3: on an idle radio with a valid channel and buffer, every scheduling
operation accepts a `when` or a `timeout` of the minimum positive delta (no
positive delta is smaller), the other delta being positive; and every
scheduling operation rejects a `when` or `timeout` that is zero or negative as
a precondition violation, in the call itself and without a change to the
radio. -/
theorem delta_boundary (hw : radio_hardware) (r : scheduled_radio) (channel : Nat)
    (data : List Nat) (size : Nat) (transmit : write_buffer) (receive : read_buffer)
    (hidle : r.state.is_idle = true) (hchannel : channel < hw.channels)
    (hsize : size ≤ hw.max_frame_size) (htransmit : transmit.size ≤ hw.max_frame_size) :
    (∀ d : delta_time, 0 < d.usec → delta_time.min_positive.usec ≤ d.usec) ∧
    0 < delta_time.min_positive.usec ∧
    (schedule_transmit hw r channel data size .min_positive).2 = .accepted ∧
    (∀ d : delta_time, 0 < d.usec →
      (schedule_receive hw r channel .min_positive d).2 = .accepted ∧
      (schedule_receive hw r channel d .min_positive).2 = .accepted ∧
      (schedule_transmit_and_receive hw r channel transmit .min_positive receive d).2 =
        .accepted ∧
      (schedule_transmit_and_receive hw r channel transmit d receive .min_positive).2 =
        .accepted) ∧
    (∀ d : delta_time, d.usec ≤ 0 →
      schedule_transmit hw r channel data size d = (r, .precondition_violation)) ∧
    (∀ d t : delta_time, d.usec ≤ 0 ∨ t.usec ≤ 0 →
      schedule_receive hw r channel d t = (r, .precondition_violation) ∧
      schedule_transmit_and_receive hw r channel transmit d receive t =
        (r, .precondition_violation)) := by
  refine ⟨?_, ?_, ?_, ?_, ?_, ?_⟩
  · intro d hd
    show (1 : Int) ≤ d.usec
    omega
  · decide
  · simp [schedule_transmit, hidle, hchannel, hsize, delta_time.min_positive]
  · intro d hd
    simp [schedule_receive, schedule_transmit_and_receive, hidle, hchannel, htransmit,
      delta_time.min_positive, hd]
  · intro d hd
    have hn : ¬ (0 < d.usec) := by omega
    simp [schedule_transmit, hn]
  · intro d t hdt
    have hn : ¬ (0 < d.usec ∧ 0 < t.usec) := by omega
    constructor
    · simp only [schedule_receive]
      rw [if_neg]
      intro hc
      exact hn ⟨hc.2.2.1, hc.2.2.2⟩
    · simp only [schedule_transmit_and_receive]
      rw [if_neg]
      intro hc
      exact hn ⟨hc.2.2.2.1, hc.2.2.2.2⟩

/-- Witness for C3: channel 5 and a buffer of 2 bytes after construction at
instant 0: a `when` of one microsecond is accepted, a `when` of zero is
rejected. -/
theorem delta_boundary_witness :
    (schedule_transmit sample_hardware (scheduled_radio.construct 0) 5 [170, 187] 2 ⟨1⟩).2 =
      .accepted ∧
    schedule_transmit sample_hardware (scheduled_radio.construct 0) 5 [170, 187] 2 ⟨0⟩ =
      (scheduled_radio.construct 0, .precondition_violation) :=
  ⟨(delta_boundary sample_hardware (scheduled_radio.construct 0) 5 [170, 187] 2 ⟨2⟩ ⟨39⟩
      (by decide) (by decide) (by decide) (by decide)).2.2.1,
    (delta_boundary sample_hardware (scheduled_radio.construct 0) 5 [170, 187] 2 ⟨2⟩ ⟨39⟩
      (by decide) (by decide) (by decide) (by decide)).2.2.2.2.1 ⟨0⟩ (by decide)⟩

/-- A transmit-only operation is either still armed or completed with the anchor
at its start. -/
theorem run_armed_transmit (hw : radio_hardware) (r : scheduled_radio)
    (channel size : Nat) (start : Int) (es : List hardware_event)
    (h : r.state = .armed_transmit channel size start none) :
    r.run hw es = r ∨ r.run hw es = r.complete start .transmitted := by
  induction es with
  | nil => exact Or.inl rfl
  | cons e es ih =>
      rw [scheduled_radio.run]
      cases e with
      | transmit_end =>
          right
          have hh : r.handle hw .transmit_end = r.complete start .transmitted := by
            simp [scheduled_radio.handle, h]
          rw [hh]
          exact run_idle hw _ es rfl
      | guard_interval_elapsed =>
          have hh : r.handle hw .guard_interval_elapsed = r := by
            simp [scheduled_radio.handle, h]
          rw [hh]
          exact ih
      | frame i v =>
          have hh : r.handle hw (.frame i v) = r := by
            simp [scheduled_radio.handle, h]
          rw [hh]
          exact ih
      | deadline =>
          have hh : r.handle hw .deadline = r := by
            simp [scheduled_radio.handle, h]
          rw [hh]
          exact ih

/-- C4: for a valid channel, buffer and `when` on an idle radio, `schedule_transmit`
is accepted; the end of the transmission completes it, with the
transmit-completion callback as the one callback delivered; and whenever the
operation has completed, after whatever signals of the hardware, the anchor is
strictly greater than the anchor before the call. -/
theorem transmit_advances_anchor (hw : radio_hardware) (r : scheduled_radio)
    (channel : Nat) (data : List Nat) (size : Nat) (when_ms : delta_time)
    (hidle : r.state.is_idle = true) (hchannel : channel < hw.channels)
    (hsize : size ≤ hw.max_frame_size) (hwhen : 0 < when_ms.usec) :
    (schedule_transmit hw r channel data size when_ms).2 = .accepted ∧
    ((schedule_transmit hw r channel data size when_ms).1.handle hw .transmit_end).state =
      .idle ∧
    ((schedule_transmit hw r channel data size when_ms).1.handle hw .transmit_end).delivered =
      r.delivered ++ [.transmitted] ∧
    r.anchor <
      ((schedule_transmit hw r channel data size when_ms).1.handle hw .transmit_end).anchor ∧
    (∀ es : List hardware_event,
      ((schedule_transmit hw r channel data size when_ms).1.run hw es).state.is_idle = true →
        r.anchor < ((schedule_transmit hw r channel data size when_ms).1.run hw es).anchor) := by
  have hcall : schedule_transmit hw r channel data size when_ms =
      ((scheduled_radio.mk r.anchor
        (.armed_transmit channel size (r.anchor + when_ms.usec) none) r.delivered),
        .accepted) := by
    simp [schedule_transmit, hidle, hchannel, hsize, hwhen]
  rw [hcall]
  refine ⟨rfl, ?_, ?_, ?_, ?_⟩
  · simp [scheduled_radio.handle, scheduled_radio.complete]
  · simp [scheduled_radio.handle, scheduled_radio.complete]
  · simp [scheduled_radio.handle, scheduled_radio.complete, hwhen]
  · intro es hdone
    rcases run_armed_transmit hw
      (scheduled_radio.mk r.anchor
        (.armed_transmit channel size (r.anchor + when_ms.usec) none) r.delivered)
      channel size (r.anchor + when_ms.usec) es rfl with h1 | h1
    · rw [h1] at hdone
      simp [engine_state.is_idle] at hdone
    · rw [h1]
      simp [scheduled_radio.complete, hwhen]

/-- Witness for C4: the scenario of the spec, channel 5, two bytes, `when` 1000
microseconds after construction at instant 0: the anchor is 1000 after
completion. -/
theorem transmit_advances_anchor_witness :
    (0 : Int) < ((schedule_transmit sample_hardware (scheduled_radio.construct 0) 5
      [170, 187] 2 ⟨1000⟩).1.handle sample_hardware .transmit_end).anchor :=
  (transmit_advances_anchor sample_hardware (scheduled_radio.construct 0) 5 [170, 187] 2
    ⟨1000⟩
    (by decide) (by decide) (by decide) (by decide)).2.2.2.1

end link_layer
end bluetoe
